import Mathlib

/-!
# A formal model of the VeroType TrueType container decoder

This file embeds the byte-level decoding logic of the VeroType library
(`src/buffer.rs`, `src/lib.rs`, `src/tables/mod.rs`, `src/tables/head.rs`,
`src/tables/name.rs`) and proves properties of the offset-header decoder,
the table-directory decoder, and the head/name table decoders.

Bytes are modelled as natural numbers below 256.  Machine integers are
naturals (unsigned) or integers (signed, twos complement), reduced modulo
their width exactly where the fixed-width arithmetic of the source wraps.
Fallible Rust functions return an explicit outcome value; a Rust panic
(a failing `unwrap`, an out-of-range slice index) is modelled as a third,
distinguished outcome next to `Ok` and `Err`.
-/

set_option maxRecDepth 10000

deriving instance DecidableEq for Except

namespace VeroType

/-- Big-endian u16 from two bytes (`u16::from_be_bytes`). -/
def u16Be (b0 b1 : Nat) : Nat := b0 * 256 + b1

/-- Big-endian u32 from four bytes (`u32::from_be_bytes`). -/
def u32Be (b0 b1 b2 b3 : Nat) : Nat := ((b0 * 256 + b1) * 256 + b2) * 256 + b3

/-- Big-endian i16 from two bytes (`i16::from_be_bytes`), twos complement. -/
def i16Be (b0 b1 : Nat) : Int :=
  if u16Be b0 b1 < 32768 then (u16Be b0 b1 : Int) else (u16Be b0 b1 : Int) - 65536

/-- Big-endian i64 from eight bytes (`i64::from_be_bytes`), twos complement. -/
def i64Be (b0 b1 b2 b3 b4 b5 b6 b7 : Nat) : Int :=
  let n : Nat :=
    ((((((b0 * 256 + b1) * 256 + b2) * 256 + b3) * 256 + b4) * 256 + b5) * 256 + b6) * 256 + b7
  if n < 9223372036854775808 then (n : Int) else (n : Int) - 18446744073709551616

/-- Big-endian byte list of a u16 (`u16::to_be_bytes`). -/
def u16ToBe (n : Nat) : List Nat := [n / 256 % 256, n % 256]

/-- Big-endian byte list of a u32 (`u32::to_be_bytes`). -/
def u32ToBe (n : Nat) : List Nat :=
  [n / 16777216 % 256, n / 65536 % 256, n / 256 % 256, n % 256]

/-- Outcome of running a fallible Rust function: `Ok`, `Err`, or a panic
(a failing `unwrap`, an out-of-range slice index). -/
inductive POutcome (ε α : Type) where
  | ok (a : α)
  | error (e : ε)
  | panicked
deriving DecidableEq

/-- Rust `TableEncodingError` (src/tables/mod.rs): a fixed-size region had the
wrong byte count.  `InvalidBufferLength expected actual` is what the design
document calls `MalformedLength(expected, actual)`. -/
inductive TableEncodingError where
  | InvalidBufferLength (expected actual : Nat)
deriving DecidableEq

/-- Rust `VeroBufReaderError` (src/buffer.rs): a failed read (including premature
end-of-stream inside `read_exact`) or a failed seek. -/
inductive VeroBufReaderError where
  | ReadError
  | FailedToSeek
deriving DecidableEq

/-- Rust `VeroTypeError` (src/lib.rs): the library-level error enum. -/
inductive VeroTypeError where
  | TableEncodingError (e : VeroType.TableEncodingError)
  | VeroBufReaderError (e : VeroType.VeroBufReaderError)
deriving DecidableEq

/-- Model of `VeroBufReader` (src/buffer.rs) over an in-memory byte source
(a `Cursor`): the full byte sequence plus the current cursor position. -/
structure VeroBufReader where
  data : List Nat
  pos : Nat
deriving DecidableEq

/-- Rust `VeroBufReader::seek_to`: absolute seek from the start of the source.
On an in-memory source a seek to any position succeeds. -/
def VeroBufReader.seek_to (r : VeroBufReader) (p : Nat) : VeroBufReader :=
  { r with pos := p }

/-- Rust `VeroBufReader::read_exact` of `n` bytes: fails with `ReadError`
(`io::ErrorKind::UnexpectedEof`) when fewer than `n` bytes remain before
end-of-stream, otherwise yields the bytes and advances the cursor. -/
def VeroBufReader.read_exact (r : VeroBufReader) (n : Nat) :
    Except VeroBufReaderError (List Nat × VeroBufReader) :=
  if n ≤ r.data.length - r.pos then
    .ok ((r.data.drop r.pos).take n, { r with pos := r.pos + n })
  else
    .error .ReadError

/-- Rust `OffsetTable` (src/tables/mod.rs): the 12-byte offset subtable. -/
structure OffsetTable where
  scalar_type : Nat
  num_tables : Nat
  search_range : Nat
  entry_selector : Nat
  range_shift : Nat
deriving DecidableEq

/-- Rust `OffsetTable::from_buffer`: requires exactly 12 bytes, then parses the
five big-endian fields at bytes 0-4, 4-6, 6-8, 8-10, 10-12. -/
def OffsetTable.from_buffer (buf : List Nat) :
    Except TableEncodingError OffsetTable :=
  if buf.length ≠ 12 then .error (.InvalidBufferLength 12 buf.length)
  else .ok
    { scalar_type := u32Be (buf.getD 0 0) (buf.getD 1 0) (buf.getD 2 0) (buf.getD 3 0)
      num_tables := u16Be (buf.getD 4 0) (buf.getD 5 0)
      search_range := u16Be (buf.getD 6 0) (buf.getD 7 0)
      entry_selector := u16Be (buf.getD 8 0) (buf.getD 9 0)
      range_shift := u16Be (buf.getD 10 0) (buf.getD 11 0) }

/-- Rust `OffsetTable::from_reader`: seek to absolute offset 0, read exactly 12
bytes, parse with `from_buffer`.  The advanced reader is returned explicitly
(the source threads it as `&mut`). -/
def OffsetTable.from_reader (r : VeroBufReader) :
    Except VeroTypeError (OffsetTable × VeroBufReader) :=
  match (r.seek_to 0).read_exact 12 with
  | .error e => .error (.VeroBufReaderError e)
  | .ok (buffer, r1) =>
    match OffsetTable.from_buffer buffer with
    | .error e => .error (.TableEncodingError e)
    | .ok t => .ok (t, r1)

/-- Field-for-field big-endian re-encoding of an `OffsetTable` into its
12-byte layout (the inverse direction of `OffsetTable::from_buffer`). -/
def OffsetTable.to_bytes (t : OffsetTable) : List Nat :=
  u32ToBe t.scalar_type ++ u16ToBe t.num_tables ++ u16ToBe t.search_range ++
    u16ToBe t.entry_selector ++ u16ToBe t.range_shift

/-- Rust `RequiredTables` (src/tables/mod.rs): the nine required table tags, in
declaration order (the derived `Ord` compares constructors in this order). -/
inductive RequiredTables where
  | Cmap
  | Glyf
  | Head
  | Hhea
  | Hmtx
  | Loca
  | Maxp
  | Name
  | Post
deriving DecidableEq

/-- Position of a tag in the declaration order: the derived `Ord`/`PartialOrd`
of `RequiredTables` compares by this index. -/
def tagIdx : RequiredTables → Nat
  | .Cmap => 0
  | .Glyf => 1
  | .Head => 2
  | .Hhea => 3
  | .Hmtx => 4
  | .Loca => 5
  | .Maxp => 6
  | .Name => 7
  | .Post => 8

/-- A UTF-8 continuation byte: `0x80`-`0xBF`. -/
def contB (b : Nat) : Bool := 128 ≤ b && b ≤ 191

/-- UTF-8 validity of a byte sequence, as checked by `str::from_utf8`
(shortest-form encodings only, surrogates and values above U+10FFFF
rejected). -/
def utf8Valid : List Nat → Bool
  | [] => true
  | b :: rest =>
    if b ≤ 127 then utf8Valid rest
    else if 194 ≤ b && b ≤ 223 then
      match rest with
      | b1 :: rest1 => contB b1 && utf8Valid rest1
      | [] => false
    else if 224 ≤ b && b ≤ 239 then
      match rest with
      | b1 :: b2 :: rest2 =>
        (if b = 224 then 160 ≤ b1 && b1 ≤ 191
         else if b = 237 then 128 ≤ b1 && b1 ≤ 159
         else contB b1) && contB b2 && utf8Valid rest2
      | _ => false
    else if 240 ≤ b && b ≤ 244 then
      match rest with
      | b1 :: b2 :: b3 :: rest3 =>
        (if b = 240 then 144 ≤ b1 && b1 ≤ 191
         else if b = 244 then 128 ≤ b1 && b1 ≤ 143
         else contB b1) && contB b2 && contB b3 && utf8Valid rest3
      | _ => false
    else false

/-- Rust `RequiredTables::try_from(&[u8])` (src/tables/mod.rs): decode the tag
bytes as UTF-8 with `str::from_utf8(value).unwrap()` — a non-UTF-8 tag
panics — then match the string against the nine tag names; any other string
is `Err(())`. -/
def RequiredTables.try_from (value : List Nat) : POutcome Unit RequiredTables :=
  if utf8Valid value then
    if value = [99, 109, 97, 112] then .ok .Cmap          -- "cmap"
    else if value = [103, 108, 121, 102] then .ok .Glyf   -- "glyf"
    else if value = [104, 101, 97, 100] then .ok .Head    -- "head"
    else if value = [104, 104, 101, 97] then .ok .Hhea    -- "hhea"
    else if value = [104, 109, 116, 120] then .ok .Hmtx   -- "hmtx"
    else if value = [108, 111, 99, 97] then .ok .Loca     -- "loca"
    else if value = [109, 97, 120, 112] then .ok .Maxp    -- "maxp"
    else if value = [110, 97, 109, 101] then .ok .Name    -- "name"
    else if value = [112, 111, 115, 116] then .ok .Post   -- "post"
    else .error ()
  else .panicked

/-- Rust `TableMetadata` (src/tables/mod.rs): checksum, offset and length of one
table; the 4-byte tag is the map key, not a field. -/
structure TableMetadata where
  checksum : Nat
  offset : Nat
  length : Nat
deriving DecidableEq

/-- Rust `TableMetadata::from_buffer`: requires exactly 16 bytes; checksum from
bytes 4-8, offset from bytes 8-12, length from bytes 12-16 (bytes 0-4 hold
the tag and are not stored). -/
def TableMetadata.from_buffer (buf : List Nat) :
    Except TableEncodingError TableMetadata :=
  if buf.length ≠ 16 then .error (.InvalidBufferLength 16 buf.length)
  else .ok
    { checksum := u32Be (buf.getD 4 0) (buf.getD 5 0) (buf.getD 6 0) (buf.getD 7 0)
      offset := u32Be (buf.getD 8 0) (buf.getD 9 0) (buf.getD 10 0) (buf.getD 11 0)
      length := u32Be (buf.getD 12 0) (buf.getD 13 0) (buf.getD 14 0) (buf.getD 15 0) }

/-- Recursion worker for `chunks16`, structural on a step counter: each step
consumes at least one element, so a counter starting at the list length
never reaches the (unreachable) zero-counter branch. -/
def chunks16Go : Nat → List Nat → List (List Nat)
  | _, [] => []
  | 0, _ :: _ => []
  | steps + 1, b :: rest => ((b :: rest).take 16) :: chunks16Go steps (rest.drop 15)

/-- Rust `buffer.chunks(16)`: split a byte list into consecutive chunks of 16
bytes; the last chunk may be shorter. -/
def chunks16 (l : List Nat) : List (List Nat) := chunks16Go l.length l

/-- Rust `BTreeMap::insert` modelled on an association list kept in strictly
increasing key order (the derived tag order): inserting an existing key
replaces its binding. -/
def btreeInsert (k : RequiredTables) (v : TableMetadata) :
    List (RequiredTables × TableMetadata) → List (RequiredTables × TableMetadata)
  | [] => [(k, v)]
  | (k1, v1) :: rest =>
    if tagIdx k < tagIdx k1 then (k, v) :: (k1, v1) :: rest
    else if tagIdx k = tagIdx k1 then (k, v) :: rest
    else (k1, v1) :: btreeInsert k v rest

/-- Rust `BTreeMap::get` on the association list. -/
def btreeGet (l : List (RequiredTables × TableMetadata)) (k : RequiredTables) :
    Option TableMetadata :=
  match l with
  | [] => none
  | (k1, v) :: rest => if k = k1 then some v else btreeGet rest k

/-- Rust `TablesHeaders` (src/tables/mod.rs): the tag-to-metadata directory map,
held in key order as a `BTreeMap` is. -/
structure TablesHeaders where
  inner : List (RequiredTables × TableMetadata)
deriving DecidableEq

/-- The per-record loop of `TablesHeaders::from_reader`: for each 16-byte
record, take the tag from bytes 0-4 (an out-of-range slice panics); a
recognized tag is parsed with `TableMetadata::from_buffer` and inserted
(later records overwrite earlier ones with the same tag); an unrecognized
tag is skipped; a non-UTF-8 tag panics inside `RequiredTables::try_from`. -/
def processChunks : List (List Nat) → List (RequiredTables × TableMetadata) →
    POutcome VeroTypeError (List (RequiredTables × TableMetadata))
  | [], acc => .ok acc
  | raw :: rest, acc =>
    if raw.length < 4 then .panicked
    else
      match RequiredTables.try_from (raw.take 4) with
      | .panicked => .panicked
      | .error _ => processChunks rest acc
      | .ok table_type =>
        match TableMetadata.from_buffer raw with
        | .error e => .error (.TableEncodingError e)
        | .ok metadata => processChunks rest (btreeInsert table_type metadata acc)

/-- The pure block-processing part of `TablesHeaders::from_reader`: chunk the
directory block into 16-byte records and run the record loop on an empty
map. -/
def TablesHeaders.from_block (buffer : List Nat) :
    POutcome VeroTypeError TablesHeaders :=
  match processChunks (chunks16 buffer) [] with
  | .ok m => .ok ⟨m⟩
  | .error e => .error e
  | .panicked => .panicked

/-- Rust `TablesHeaders::from_reader`: read `num_tables * 16` bytes from the
current position, then decode the block. -/
def TablesHeaders.from_reader (r : VeroBufReader) (num_tables : Nat) :
    POutcome VeroTypeError (TablesHeaders × VeroBufReader) :=
  match r.read_exact (num_tables * 16) with
  | .error e => .error (.VeroBufReaderError e)
  | .ok (buffer, r1) =>
    match TablesHeaders.from_block buffer with
    | .ok hs => .ok (hs, r1)
    | .error e => .error e
    | .panicked => .panicked

/-- Rust `TablesHeaders::get`. -/
def TablesHeaders.get (hs : TablesHeaders) (k : RequiredTables) :
    Option TableMetadata :=
  btreeGet hs.inner k

/-- The recognized tag of a directory record, if any (specification side:
`none` covers both an unrecognized and a non-UTF-8 tag). -/
def recTag (rec : List Nat) : Option RequiredTables :=
  match RequiredTables.try_from (rec.take 4) with
  | .ok t => some t
  | _ => none

/-- The `TableMetadata` a recognized 16-byte record contributes, taken from
bytes 4-16 (checksum 4-8, offset 8-12, length 12-16). -/
def tableLocOf (rec : List Nat) : TableMetadata :=
  { checksum := u32Be (rec.getD 4 0) (rec.getD 5 0) (rec.getD 6 0) (rec.getD 7 0)
    offset := u32Be (rec.getD 8 0) (rec.getD 9 0) (rec.getD 10 0) (rec.getD 11 0)
    length := u32Be (rec.getD 12 0) (rec.getD 13 0) (rec.getD 14 0) (rec.getD 15 0) }

/-- The location contributed by the LAST record in file order whose tag is
recognized as `t`, if any. -/
def lastLoc (t : RequiredTables) : List (List Nat) → Option TableMetadata
  | [] => none
  | rec :: rest =>
    match lastLoc t rest with
    | some m => some m
    | none => if recTag rec = some t then some (tableLocOf rec) else none

theorem chunks16Go_mem_length : ∀ (n : Nat) (l : List Nat), 16 ∣ l.length →
    ∀ c ∈ chunks16Go n l, c.length = 16 := by
  intro n
  induction n with
  | zero =>
    intro l h c hc
    cases l <;> simp [chunks16Go] at hc
  | succ n ih =>
    intro l h c hc
    cases l with
    | nil => simp [chunks16Go] at hc
    | cons b rest =>
      rw [chunks16Go] at hc
      rcases List.mem_cons.mp hc with rfl | hmem
      · have hlen : 16 ≤ rest.length + 1 := by
          rcases h with ⟨k, hk⟩
          simp only [List.length_cons] at hk
          omega
        simp only [List.length_take, List.length_cons]
        omega
      · refine ih (rest.drop 15) ?_ c hmem
        rcases h with ⟨k, hk⟩
        simp only [List.length_cons] at hk
        simp only [List.length_drop]
        omega

theorem chunks16_mem_length (l : List Nat) (h : 16 ∣ l.length) :
    ∀ c ∈ chunks16 l, c.length = 16 :=
  chunks16Go_mem_length l.length l h

theorem try_from_ne_panicked {v : List Nat} (h : utf8Valid v = true) :
    RequiredTables.try_from v ≠ .panicked := by
  simp only [RequiredTables.try_from, h, if_true]
  split_ifs <;> simp

theorem from_buffer_sixteen {raw : List Nat} (h : raw.length = 16) :
    TableMetadata.from_buffer raw = .ok (tableLocOf raw) := by
  simp [TableMetadata.from_buffer, h, tableLocOf]

theorem tagIdx_inj : ∀ a b : RequiredTables, tagIdx a = tagIdx b → a = b := by
  intro a b h
  cases a <;> cases b <;> first | rfl | simp [tagIdx] at h

theorem btreeGet_insert (l : List (RequiredTables × TableMetadata))
    (k k' : RequiredTables) (v : TableMetadata) :
    btreeGet (btreeInsert k v l) k' = if k' = k then some v else btreeGet l k' := by
  induction l with
  | nil => simp [btreeInsert, btreeGet]
  | cons p rest ih =>
    obtain ⟨k1, v1⟩ := p
    by_cases h1 : tagIdx k < tagIdx k1
    · by_cases hk : k' = k <;>
        simp [btreeInsert, if_pos h1, btreeGet, hk]
    · by_cases h2 : tagIdx k = tagIdx k1
      · have hkk1 : k = k1 := tagIdx_inj _ _ h2
        subst hkk1
        by_cases hk : k' = k <;>
          simp [btreeInsert, if_neg h1, btreeGet, hk]
      · have hkne : k ≠ k1 := fun e => h2 (by rw [e])
        by_cases hk : k' = k
        · subst hk
          simp [btreeInsert, if_neg h1, if_neg h2, btreeGet, hkne, ih]
        · have hne1 : k1 ≠ k := fun e => hkne e.symm
          by_cases hk1 : k' = k1 <;>
            simp [btreeInsert, if_neg h1, if_neg h2, btreeGet, hk1, hk, ih, hne1]

theorem processChunks_spec : ∀ (chunks : List (List Nat)),
    (∀ c ∈ chunks, c.length = 16) →
    (∀ c ∈ chunks, utf8Valid (c.take 4) = true) →
    ∀ acc, ∃ m, processChunks chunks acc = .ok m ∧
      ∀ t, btreeGet m t = (lastLoc t chunks).elim (btreeGet acc t) some := by
  intro chunks
  induction chunks with
  | nil =>
    intro _ _ acc
    exact ⟨acc, rfl, fun t => by simp [lastLoc]⟩
  | cons raw rest ih =>
    intro hlen hutf acc
    have hraw16 : raw.length = 16 := hlen raw (by simp)
    have hrawu : utf8Valid (raw.take 4) = true := hutf raw (by simp)
    have hlen' : ∀ c ∈ rest, c.length = 16 := fun c hc => hlen c (by simp [hc])
    have hutf' : ∀ c ∈ rest, utf8Valid (c.take 4) = true := fun c hc => hutf c (by simp [hc])
    have hnot4 : ¬ raw.length < 4 := by omega
    cases htf : RequiredTables.try_from (raw.take 4) with
    | panicked => exact absurd htf (try_from_ne_panicked hrawu)
    | error u =>
      obtain ⟨m, hm, hget⟩ := ih hlen' hutf' acc
      refine ⟨m, ?_, ?_⟩
      · simp only [processChunks, if_neg hnot4, htf]
        exact hm
      · intro t
        have hrt : recTag raw = none := by simp [recTag, htf]
        have hll : lastLoc t (raw :: rest) = lastLoc t rest := by
          simp only [lastLoc, hrt]
          cases lastLoc t rest <;> simp
        rw [hll]
        exact hget t
    | ok k =>
      obtain ⟨m, hm, hget⟩ := ih hlen' hutf' (btreeInsert k (tableLocOf raw) acc)
      refine ⟨m, ?_, ?_⟩
      · simp only [processChunks, if_neg hnot4, htf, from_buffer_sixteen hraw16]
        exact hm
      · intro t
        have hrt : recTag raw = some k := by simp [recTag, htf]
        rw [hget t]
        cases hll : lastLoc t rest with
        | some x => simp [lastLoc, hll]
        | none =>
          simp only [lastLoc, hll, Option.elim]
          rw [btreeGet_insert]
          by_cases hk : t = k
          · subst hk
            simp [hrt]
          · have hne : ¬ recTag raw = some t := by
              rw [hrt]
              exact fun e => hk (Option.some.inj e).symm
            simp [hne, hk]

/-- C1 (amended): for every table_count `N` and every directory block of
exactly `16 × N` bytes all of whose record tags are valid UTF-8, the
directory decoder succeeds and produces a map whose entry for each tag `t`
is exactly the `TableLocation` (bytes 4-16: checksum 4-8, offset 8-12,
length 12-16) of the last record in file order recognized as `t`; a tag
that never occurs, and every unrecognized tag, contributes no entry.
(The UTF-8 restriction is forced: a record whose tag bytes are not valid
UTF-8 makes the decoder panic instead of producing a map.) -/
theorem claim1_table_directory (n : Nat) (block : List Nat)
    (hlen : block.length = 16 * n)
    (hutf8 : ∀ rec ∈ chunks16 block, utf8Valid (rec.take 4) = true) :
    ∃ hs, TablesHeaders.from_block block = .ok hs ∧
      ∀ t, hs.get t = lastLoc t (chunks16 block) := by
  have hdvd : 16 ∣ block.length := ⟨n, hlen⟩
  obtain ⟨m, hm, hget⟩ :=
    processChunks_spec (chunks16 block) (chunks16_mem_length block hdvd) hutf8 []
  refine ⟨⟨m⟩, ?_, ?_⟩
  · simp [TablesHeaders.from_block, hm]
  · intro t
    have h := hget t
    simp only [btreeGet] at h
    rw [TablesHeaders.get, h]
    cases lastLoc t (chunks16 block) <;> simp [btreeGet]

/-- A 48-byte directory block (N = 3) exercising C1: a `head` record, an
unrecognized `xxxx` record, and a second `head` record that must win. -/
def demoBlock : List Nat :=
  [104, 101, 97, 100, 0, 0, 0, 1, 0, 0, 0, 44, 0, 0, 0, 54] ++
    [120, 120, 120, 120, 0, 0, 0, 2, 0, 0, 0, 99, 0, 0, 0, 99] ++
    [104, 101, 97, 100, 0, 0, 0, 3, 0, 0, 1, 0, 0, 0, 0, 54]

/-- C1 witness at `demoBlock` (N = 3). -/
theorem claim1_table_directory_witness :
    ∃ hs, TablesHeaders.from_block demoBlock = .ok hs ∧
      ∀ t, hs.get t = lastLoc t (chunks16 demoBlock) :=
  claim1_table_directory 3 demoBlock (by decide) (by decide)

/-- A 16-byte directory block whose single record tag starts with `0xC0`,
which is never valid UTF-8. -/
def badTagBlock : List Nat :=
  [192, 97, 97, 97, 0, 0, 0, 0, 0, 0, 0, 0, 0, 0, 0, 0]

/-- C1 counterexample: on a 16-byte block (N = 1) whose record tag is not
valid UTF-8, the directory decoder panics instead of producing a map, so
the unrecognized tag does not merely "contribute no entry". -/
theorem claim1_counterexample :
    TablesHeaders.from_block badTagBlock = .panicked := by decide

/-- C3: a directory record whose first 4 bytes are not valid UTF-8 makes
`RequiredTables::try_from` panic on `str::from_utf8(value).unwrap()`, so
directory decoding panics instead of returning a representable failure
value. -/
theorem claim3_invalid_tag_panics :
    TablesHeaders.from_reader
        { data := [255, 255, 255, 255, 0, 0, 0, 0, 0, 0, 0, 0, 0, 0, 0, 0], pos := 0 } 1 =
      .panicked := by decide

/-- C6 (amended): for every table_count `N` and every byte source with fewer
than `16 × N` bytes remaining for the directory block, directory decoding
fails — but with the I/O read failure `ReadError` raised by `read_exact`
(premature end-of-stream), not with `MalformedLength(16*N, actual)`. -/
theorem claim6_truncated_directory (r : VeroType.VeroBufReader) (n : Nat)
    (h : r.data.length - r.pos < 16 * n) :
    TablesHeaders.from_reader r n = .error (.VeroBufReaderError .ReadError) := by
  have hnot : ¬ (n * 16 ≤ r.data.length - r.pos) := by omega
  simp [TablesHeaders.from_reader, VeroBufReader.read_exact, hnot]

/-- C6 witness: an empty byte source and N = 1. -/
theorem claim6_truncated_directory_witness :
    TablesHeaders.from_reader { data := [], pos := 0 } 1 =
      .error (.VeroBufReaderError .ReadError) :=
  claim6_truncated_directory { data := [], pos := 0 } 1 (by decide)

/-- C6 counterexample: a one-byte source with N = 1 (actual length 1 < 16)
fails with the I/O read failure and not with `MalformedLength(16, 1)` as
the claim states. -/
theorem claim6_counterexample :
    TablesHeaders.from_reader { data := [0], pos := 0 } 1 =
        .error (.VeroBufReaderError .ReadError) ∧
      TablesHeaders.from_reader { data := [0], pos := 0 } 1 ≠
        .error (.TableEncodingError (.InvalidBufferLength 16 1)) := by
  exact ⟨by rfl, by decide⟩

theorem btreeInsert_mem (k : RequiredTables) (v : TableMetadata) :
    ∀ (l : List (RequiredTables × TableMetadata)),
    ∀ x ∈ btreeInsert k v l, x = (k, v) ∨ x ∈ l := by
  intro l
  induction l with
  | nil =>
    intro x hx
    simp only [btreeInsert, List.mem_singleton] at hx
    exact Or.inl hx
  | cons p rest ih =>
    obtain ⟨k1, v1⟩ := p
    intro x hx
    simp only [btreeInsert] at hx
    split_ifs at hx with h1 h2
    · rcases List.mem_cons.mp hx with rfl | hx
      · exact Or.inl rfl
      · exact Or.inr hx
    · rcases List.mem_cons.mp hx with rfl | hx
      · exact Or.inl rfl
      · exact Or.inr (List.mem_cons_of_mem _ hx)
    · rcases List.mem_cons.mp hx with rfl | hx
      · exact Or.inr (List.mem_cons_self _ _)
      · rcases ih x hx with h | h
        · exact Or.inl h
        · exact Or.inr (List.mem_cons_of_mem _ h)

theorem btreeInsert_pairwise (k : RequiredTables) (v : TableMetadata) :
    ∀ (l : List (RequiredTables × TableMetadata)),
    l.Pairwise (fun a b => tagIdx a.1 < tagIdx b.1) →
    (btreeInsert k v l).Pairwise (fun a b => tagIdx a.1 < tagIdx b.1) := by
  intro l
  induction l with
  | nil =>
    intro _
    simp [btreeInsert]
  | cons p rest ih =>
    obtain ⟨k1, v1⟩ := p
    intro hp
    rw [List.pairwise_cons] at hp
    obtain ⟨hall, hrest⟩ := hp
    simp only [btreeInsert]
    split_ifs with h1 h2
    · refine List.Pairwise.cons ?_ (List.Pairwise.cons hall hrest)
      intro x hx
      rcases List.mem_cons.mp hx with rfl | hx
      · exact h1
      · exact Nat.lt_trans h1 (hall x hx)
    · refine List.Pairwise.cons ?_ hrest
      intro x hx
      rw [h2]
      exact hall x hx
    · refine List.Pairwise.cons ?_ (ih hrest)
      intro x hx
      rcases btreeInsert_mem k v rest x hx with rfl | hx
      · simp only
        omega
      · exact hall x hx

theorem processChunks_pairwise : ∀ (chunks : List (List Nat))
    (acc m : List (RequiredTables × TableMetadata)),
    acc.Pairwise (fun a b => tagIdx a.1 < tagIdx b.1) →
    processChunks chunks acc = .ok m →
    m.Pairwise (fun a b => tagIdx a.1 < tagIdx b.1) := by
  intro chunks
  induction chunks with
  | nil =>
    intro acc m hacc h
    simp only [processChunks] at h
    cases h
    exact hacc
  | cons raw rest ih =>
    intro acc m hacc h
    simp only [processChunks] at h
    by_cases h4 : raw.length < 4
    · rw [if_pos h4] at h
      cases h
    · rw [if_neg h4] at h
      cases htf : RequiredTables.try_from (raw.take 4) with
      | panicked =>
        rw [htf] at h
        cases h
      | error u =>
        rw [htf] at h
        exact ih acc m hacc h
      | ok k =>
        rw [htf] at h
        cases hfb : TableMetadata.from_buffer raw with
        | error e =>
          rw [hfb] at h
          cases h
        | ok md =>
          rw [hfb] at h
          exact ih _ m (btreeInsert_pairwise k md acc hacc) h

/-- The fixed iteration order of the tag enumeration: the derived ordering
`Cmap < Glyf < Head < Hhea < Hmtx < Loca < Maxp < Name < Post`. -/
def canonicalTagOrder : List RequiredTables :=
  [.Cmap, .Glyf, .Head, .Hhea, .Hmtx, .Loca, .Maxp, .Name, .Post]

theorem canonical_step (t : RequiredTables) : ∀ (n : Nat), n ≤ tagIdx t →
    List.Sublist (t :: canonicalTagOrder.drop (tagIdx t + 1))
      (canonicalTagOrder.drop n) := by
  cases t <;>
    (intro n hn
     simp only [tagIdx] at hn ⊢
     interval_cases n <;> decide)

theorem sorted_sublist_canonical : ∀ (l : List RequiredTables) (n : Nat),
    l.Pairwise (fun a b => tagIdx a < tagIdx b) →
    (∀ x ∈ l, n ≤ tagIdx x) →
    List.Sublist l (canonicalTagOrder.drop n) := by
  intro l
  induction l with
  | nil =>
    intro n _ _
    exact List.nil_sublist _
  | cons t rest ih =>
    intro n hpw hlb
    rw [List.pairwise_cons] at hpw
    obtain ⟨hall, hrest⟩ := hpw
    have h1 : List.Sublist rest (canonicalTagOrder.drop (tagIdx t + 1)) :=
      ih (tagIdx t + 1) hrest (fun x hx => hall x hx)
    exact List.Sublist.trans (List.Sublist.cons₂ t h1)
      (canonical_step t n (hlb t (List.mem_cons_self _ _)))

/-- C9: iterating a decoded table directory yields its entries as a sublist
of the fixed tag order `Cmap, Glyf, Head, Hhea, Hmtx, Loca, Maxp, Name,
Post` (the derived ordering of the tag enumeration), for every input block —
hence regardless of the order of the records in the file. -/
theorem claim9_iteration_order (block : List Nat) (hs : TablesHeaders)
    (hok : TablesHeaders.from_block block = .ok hs) :
    List.Sublist (hs.inner.map Prod.fst) canonicalTagOrder := by
  unfold TablesHeaders.from_block at hok
  cases hpc : processChunks (chunks16 block) [] with
  | ok m =>
    rw [hpc] at hok
    cases hok
    have hpw : m.Pairwise (fun a b => tagIdx a.1 < tagIdx b.1) :=
      processChunks_pairwise _ _ _ List.Pairwise.nil hpc
    have hpw2 : (m.map Prod.fst).Pairwise (fun a b => tagIdx a < tagIdx b) :=
      List.pairwise_map.mpr hpw
    have h := sorted_sublist_canonical (m.map Prod.fst) 0 hpw2 (fun x _ => Nat.zero_le _)
    simpa using h
  | error e =>
    rw [hpc] at hok
    cases hok
  | panicked =>
    rw [hpc] at hok
    cases hok

/-- A 32-byte directory block whose records arrive out of tag order:
`name` first, then `head`. -/
def reorderBlock : List Nat :=
  [110, 97, 109, 101, 0, 0, 0, 1, 0, 0, 0, 10, 0, 0, 0, 20] ++
    [104, 101, 97, 100, 0, 0, 0, 2, 0, 0, 0, 44, 0, 0, 0, 54]

/-- The directory decoded from `reorderBlock`: `Head` before `Name` despite
the file order. -/
def reorderHeaders : TablesHeaders :=
  ⟨[(.Head, ⟨2, 44, 54⟩), (.Name, ⟨1, 10, 20⟩)]⟩

/-- C9 witness: the out-of-order block decodes to a directory iterated in
the fixed tag order. -/
theorem claim9_iteration_order_witness :
    TablesHeaders.from_block reorderBlock = .ok reorderHeaders ∧
      List.Sublist (reorderHeaders.inner.map Prod.fst) canonicalTagOrder :=
  ⟨by decide, claim9_iteration_order reorderBlock reorderHeaders (by decide)⟩

/-- C7: the offset header decoder always seeks to absolute offset 0 (the
result is independent of the incoming cursor position), reads exactly 12
bytes, and for every 12-byte prefix parses the five big-endian fields at
their fixed positions (scalar_type bytes 0-4, table_count 4-6, search_range
6-8, entry_selector 8-10, range_shift 10-12) with no other validation; when
fewer than 12 bytes are available before end-of-stream it fails with the
I/O read failure `ReadError` — not with `MalformedLength` as originally
claimed. -/
theorem claim7_offset_header_decoder (r : VeroType.VeroBufReader) :
    OffsetTable.from_reader r =
      if 12 ≤ r.data.length then
        .ok ({ scalar_type :=
                 u32Be (r.data.getD 0 0) (r.data.getD 1 0) (r.data.getD 2 0) (r.data.getD 3 0)
               num_tables := u16Be (r.data.getD 4 0) (r.data.getD 5 0)
               search_range := u16Be (r.data.getD 6 0) (r.data.getD 7 0)
               entry_selector := u16Be (r.data.getD 8 0) (r.data.getD 9 0)
               range_shift := u16Be (r.data.getD 10 0) (r.data.getD 11 0) },
             { data := r.data, pos := 12 })
      else .error (.VeroBufReaderError .ReadError) := by
  by_cases h : 12 ≤ r.data.length
  · have h12 : ∀ i, i < 12 → (r.data.take 12).getD i 0 = r.data.getD i 0 := by
      intro i hi
      simp [List.getD_eq_getElem?_getD, List.getElem?_take, hi]
    have hlen : (r.data.take 12).length = 12 := by simp [Nat.min_eq_left h]
    simp only [OffsetTable.from_reader, VeroBufReader.seek_to, VeroBufReader.read_exact,
      Nat.sub_zero, List.drop_zero, if_pos h, OffsetTable.from_buffer, hlen, ne_eq,
      not_true_eq_false, not_false_eq_true, if_neg, if_true, reduceIte]
    simp [if_pos h, h12 0 (by omega), h12 1 (by omega), h12 2 (by omega), h12 3 (by omega),
      h12 4 (by omega), h12 5 (by omega), h12 6 (by omega), h12 7 (by omega),
      h12 8 (by omega), h12 9 (by omega), h12 10 (by omega), h12 11 (by omega)]
  · simp [OffsetTable.from_reader, VeroBufReader.seek_to, VeroBufReader.read_exact,
      Nat.sub_zero, if_neg h]

/-- C7 counterexample: on an empty byte source (fewer than 12 bytes before
end-of-stream) the offset header decoder fails with the I/O read failure,
and not with `MalformedLength(12, 0)` as the claim states. -/
theorem claim7_counterexample :
    OffsetTable.from_reader { data := [], pos := 0 } =
        .error (.VeroBufReaderError .ReadError) ∧
      OffsetTable.from_reader { data := [], pos := 0 } ≠
        .error (.TableEncodingError (.InvalidBufferLength 12 0)) := by
  exact ⟨by rfl, by decide⟩

/-- Rust `HeadFlags` (src/tables/head.rs): the raw 16-bit flags word of the head
table; named predicates are computed on demand by masking. -/
structure HeadFlags where
  bits : Nat
deriving DecidableEq

/-- Rust `HeadFlags::from_bits`. -/
def HeadFlags.from_bits (bits : Nat) : HeadFlags := ⟨bits⟩

/-- Bit 0: a y value of 0 specifies the baseline. -/
def HeadFlags.y_value_zero_is_baseline (f : HeadFlags) : Bool := f.bits &&& 1 != 0

/-- Bit 1: the x position of the leftmost black bit is the LSB. -/
def HeadFlags.x_pos_leftmost_black_bit_lsb (f : HeadFlags) : Bool := f.bits &&& 2 != 0

/-- Bit 2: scaled point size and actual point size will differ. -/
def HeadFlags.scaled_point_size_differs (f : HeadFlags) : Bool := f.bits &&& 4 != 0

/-- Bit 3: use integer scaling instead of fractional. -/
def HeadFlags.use_integer_scaling (f : HeadFlags) : Bool := f.bits &&& 8 != 0

/-- Bit 4: the Microsoft TrueType scaler flag. -/
def HeadFlags.microsoft_scaler_flag (f : HeadFlags) : Bool := f.bits &&& 16 != 0

/-- Bit 5: the font is intended for vertical layout. -/
def HeadFlags.vertical_layout (f : HeadFlags) : Bool := f.bits &&& 32 != 0

/-- Bit 6: must be zero. -/
def HeadFlags.must_be_zero (f : HeadFlags) : Bool := f.bits &&& 64 != 0

/-- Bit 7: the font requires layout for correct linguistic rendering. -/
def HeadFlags.requires_linguistic_layout (f : HeadFlags) : Bool := f.bits &&& 128 != 0

/-- Bit 8: an AAT font with default metamorphosis effects. -/
def HeadFlags.aat_default_metamorphosis (f : HeadFlags) : Bool := f.bits &&& 256 != 0

/-- Bit 9: the font contains strong right-to-left glyphs. -/
def HeadFlags.strong_rtl_glyphs (f : HeadFlags) : Bool := f.bits &&& 512 != 0

/-- Bit 10: the font contains Indic-style rearrangement effects. -/
def HeadFlags.indic_rearrangement (f : HeadFlags) : Bool := f.bits &&& 1024 != 0

/-- Bits 11-13: the Adobe-defined 3-bit field (mask `0b0011_1000_0000_0000`,
shifted right by 11). -/
def HeadFlags.adobe_defined (f : HeadFlags) : Nat := (f.bits &&& 14336) >>> 11

/-- Bit 14: glyphs are generic symbols for code point ranges. -/
def HeadFlags.generic_symbol_font (f : HeadFlags) : Bool := f.bits &&& 16384 != 0

/-- Rust `Head` (src/tables/head.rs): the fixed 54-byte head table. -/
structure Head where
  version : Nat
  font_revision : Nat
  checksum_adjustment : Nat
  magic_number : Nat
  flags : HeadFlags
  units_per_em : Nat
  created : Int
  modified : Int
  x_min : Int
  y_min : Int
  x_max : Int
  y_max : Int
  mac_style : Nat
  lowest_rec_ppem : Nat
  font_direction_hint : Int
  index_to_loc_format : Int
  glyph_data_format : Int
deriving DecidableEq

/-- The buffer-parsing part of `Head::from_reader` (src/tables/head.rs,
lines 201-219): fixed big-endian fields at the documented byte offsets; a
buffer shorter than 54 bytes makes a fixed-range slice panic. -/
def Head.parse_buf (buf : List Nat) : POutcome VeroTypeError Head :=
  if buf.length < 54 then .panicked
  else .ok
    { version := u32Be (buf.getD 0 0) (buf.getD 1 0) (buf.getD 2 0) (buf.getD 3 0)
      font_revision := u32Be (buf.getD 4 0) (buf.getD 5 0) (buf.getD 6 0) (buf.getD 7 0)
      checksum_adjustment := u32Be (buf.getD 8 0) (buf.getD 9 0) (buf.getD 10 0) (buf.getD 11 0)
      magic_number := u32Be (buf.getD 12 0) (buf.getD 13 0) (buf.getD 14 0) (buf.getD 15 0)
      flags := HeadFlags.from_bits (u16Be (buf.getD 16 0) (buf.getD 17 0))
      units_per_em := u16Be (buf.getD 18 0) (buf.getD 19 0)
      created := i64Be (buf.getD 20 0) (buf.getD 21 0) (buf.getD 22 0) (buf.getD 23 0)
        (buf.getD 24 0) (buf.getD 25 0) (buf.getD 26 0) (buf.getD 27 0)
      modified := i64Be (buf.getD 28 0) (buf.getD 29 0) (buf.getD 30 0) (buf.getD 31 0)
        (buf.getD 32 0) (buf.getD 33 0) (buf.getD 34 0) (buf.getD 35 0)
      x_min := i16Be (buf.getD 36 0) (buf.getD 37 0)
      y_min := i16Be (buf.getD 38 0) (buf.getD 39 0)
      x_max := i16Be (buf.getD 40 0) (buf.getD 41 0)
      y_max := i16Be (buf.getD 42 0) (buf.getD 43 0)
      mac_style := u16Be (buf.getD 44 0) (buf.getD 45 0)
      lowest_rec_ppem := u16Be (buf.getD 46 0) (buf.getD 47 0)
      font_direction_hint := i16Be (buf.getD 48 0) (buf.getD 49 0)
      index_to_loc_format := i16Be (buf.getD 50 0) (buf.getD 51 0)
      glyph_data_format := i16Be (buf.getD 52 0) (buf.getD 53 0) }

/-- Rust `Head::from_reader`: seek to `metadata.offset`, read exactly
`metadata.length` bytes, then parse the fixed layout. -/
def Head.from_reader (r : VeroBufReader) (metadata : TableMetadata) :
    POutcome VeroTypeError (Head × VeroBufReader) :=
  match (r.seek_to metadata.offset).read_exact metadata.length with
  | .error e => .error (.VeroBufReaderError e)
  | .ok (buf, r1) =>
    match Head.parse_buf buf with
    | .ok h => .ok (h, r1)
    | .error e => .error e
    | .panicked => .panicked

/-- C4: every 54-byte head-table buffer decodes successfully;
`index_to_loc_format` is parsed from bytes 50-52 and `glyph_data_format`
from the distinct range 52-54; and when the 16-bit flag word (bytes 16-18)
equals `0x0003`, the predicates `y_value_zero_is_baseline` and
`x_pos_leftmost_black_bit_lsb` are true, every other flag predicate is
false, and the Adobe-defined 3-bit field is 0. -/
theorem claim4_head_fields (buf : List Nat) (hlen : buf.length = 54)
    (hflags : u16Be (buf.getD 16 0) (buf.getD 17 0) = 3) :
    ∃ h, Head.parse_buf buf = .ok h ∧
      h.index_to_loc_format = i16Be (buf.getD 50 0) (buf.getD 51 0) ∧
      h.glyph_data_format = i16Be (buf.getD 52 0) (buf.getD 53 0) ∧
      h.flags.y_value_zero_is_baseline = true ∧
      h.flags.x_pos_leftmost_black_bit_lsb = true ∧
      h.flags.scaled_point_size_differs = false ∧
      h.flags.use_integer_scaling = false ∧
      h.flags.microsoft_scaler_flag = false ∧
      h.flags.vertical_layout = false ∧
      h.flags.must_be_zero = false ∧
      h.flags.requires_linguistic_layout = false ∧
      h.flags.aat_default_metamorphosis = false ∧
      h.flags.strong_rtl_glyphs = false ∧
      h.flags.indic_rearrangement = false ∧
      h.flags.generic_symbol_font = false ∧
      h.flags.adobe_defined = 0 := by
  have hnot : ¬ buf.length < 54 := by omega
  unfold Head.parse_buf
  rw [if_neg hnot]
  refine ⟨_, rfl, rfl, rfl, ?_, ?_, ?_, ?_, ?_, ?_, ?_, ?_, ?_, ?_, ?_, ?_, ?_⟩ <;>
    simp only [HeadFlags.from_bits, HeadFlags.y_value_zero_is_baseline,
      HeadFlags.x_pos_leftmost_black_bit_lsb, HeadFlags.scaled_point_size_differs,
      HeadFlags.use_integer_scaling, HeadFlags.microsoft_scaler_flag,
      HeadFlags.vertical_layout, HeadFlags.must_be_zero,
      HeadFlags.requires_linguistic_layout, HeadFlags.aat_default_metamorphosis,
      HeadFlags.strong_rtl_glyphs, HeadFlags.indic_rearrangement,
      HeadFlags.generic_symbol_font, HeadFlags.adobe_defined, hflags] <;>
    decide

/-- A 54-byte head-table buffer with flags `0x0003` and distinct values in
bytes 50-52 (`index_to_loc_format` = 1) and 52-54 (`glyph_data_format` = 2),
so the two fields demonstrably come from distinct byte ranges. -/
def headDemoBuf : List Nat :=
  List.replicate 16 0 ++ [0, 3] ++ List.replicate 32 0 ++ [0, 1, 0, 2]

/-- C4 witness at `headDemoBuf`. -/
theorem claim4_head_fields_witness :
    ∃ h, Head.parse_buf headDemoBuf = .ok h ∧
      h.index_to_loc_format = i16Be (headDemoBuf.getD 50 0) (headDemoBuf.getD 51 0) ∧
      h.glyph_data_format = i16Be (headDemoBuf.getD 52 0) (headDemoBuf.getD 53 0) ∧
      h.flags.y_value_zero_is_baseline = true ∧
      h.flags.x_pos_leftmost_black_bit_lsb = true ∧
      h.flags.scaled_point_size_differs = false ∧
      h.flags.use_integer_scaling = false ∧
      h.flags.microsoft_scaler_flag = false ∧
      h.flags.vertical_layout = false ∧
      h.flags.must_be_zero = false ∧
      h.flags.requires_linguistic_layout = false ∧
      h.flags.aat_default_metamorphosis = false ∧
      h.flags.strong_rtl_glyphs = false ∧
      h.flags.indic_rearrangement = false ∧
      h.flags.generic_symbol_font = false ∧
      h.flags.adobe_defined = 0 :=
  claim4_head_fields headDemoBuf (by decide) (by decide)

/-- Rust `PlatformId` (src/tables/name.rs). -/
inductive PlatformId where
  | Unicode
  | Macintosh
  | Reserved
  | Microsoft
  | Unknown
deriving DecidableEq

/-- Rust `From<u16> for PlatformId`. -/
def PlatformId.from_u16 (value : Nat) : PlatformId :=
  if value = 0 then .Unicode
  else if value = 1 then .Macintosh
  else if value = 2 then .Reserved
  else if value = 3 then .Microsoft
  else .Unknown

/-- Rust `PlatformSpecificId` (src/tables/name.rs). -/
inductive PlatformSpecificId where
  | Version1
  | Version1_1
  | Iso10646
  | Unicode2_0Bmp
  | Unicode2_0NonBmp
  | Unknown
deriving DecidableEq

/-- Rust `From<u16> for PlatformSpecificId`. -/
def PlatformSpecificId.from_u16 (value : Nat) : PlatformSpecificId :=
  if value = 0 then .Version1
  else if value = 1 then .Version1_1
  else if value = 2 then .Iso10646
  else if value = 3 then .Unicode2_0Bmp
  else if value = 4 then .Unicode2_0NonBmp
  else .Unknown

/-- Rust `TableFormat` (src/tables/name.rs): the name-table format word. -/
inductive TableFormat where
  | TrueType
  | OpenType
  | Unknown (v : Nat)
deriving DecidableEq

/-- Rust `From<u16> for TableFormat`. -/
def TableFormat.from_u16 (value : Nat) : TableFormat :=
  if value = 0 then .TrueType
  else if value = 1 then .OpenType
  else .Unknown value

/-- Rust `NameRecord` (src/tables/name.rs): one fixed 12-byte name record. -/
structure NameRecord where
  platform_id : PlatformId
  platform_specific_id : PlatformSpecificId
  language_id : Nat
  name_id : Nat
  length : Nat
  offset : Nat
deriving DecidableEq

/-- Rust `NameRecord::from_buffer`: six big-endian u16 fields at bytes 0-12; a
chunk shorter than 12 bytes makes a fixed-range slice panic. -/
def NameRecord.from_buffer (buf : List Nat) : POutcome VeroTypeError NameRecord :=
  if buf.length < 12 then .panicked
  else .ok
    { platform_id := PlatformId.from_u16 (u16Be (buf.getD 0 0) (buf.getD 1 0))
      platform_specific_id :=
        PlatformSpecificId.from_u16 (u16Be (buf.getD 2 0) (buf.getD 3 0))
      language_id := u16Be (buf.getD 4 0) (buf.getD 5 0)
      name_id := u16Be (buf.getD 6 0) (buf.getD 7 0)
      length := u16Be (buf.getD 8 0) (buf.getD 9 0)
      offset := u16Be (buf.getD 10 0) (buf.getD 11 0) }

/-- Recursion worker for `chunks12`, structural on a step counter (same
scheme as `chunks16Go`). -/
def chunks12Go : Nat → List Nat → List (List Nat)
  | _, [] => []
  | 0, _ :: _ => []
  | steps + 1, b :: rest => ((b :: rest).take 12) :: chunks12Go steps (rest.drop 11)

/-- Rust `array_buffer.chunks(12)`. -/
def chunks12 (l : List Nat) : List (List Nat) := chunks12Go l.length l

/-- Rust `.map(NameRecord::from_buffer).map(Result::unwrap).collect()`: parse each
12-byte chunk; `Result::unwrap` turns any `Err` into a panic. -/
def mapRecords : List (List Nat) → POutcome VeroTypeError (List NameRecord)
  | [] => .ok []
  | c :: rest =>
    match NameRecord.from_buffer c with
    | .panicked => .panicked
    | .error _ => .panicked
    | .ok r =>
      match mapRecords rest with
      | .ok rs => .ok (r :: rs)
      | .error e => .error e
      | .panicked => .panicked

/-- The record-array end position computed in `Name::from_reader`
(src/tables/name.rs line 43): `usize::from(6 + count * 12)` where
`count: u16` — the multiplication and addition are 16-bit and wrap modulo
`2^16` before the widening to `usize`. -/
def nameEndOfArray (count : Nat) : Nat := (6 + count * 12 % 65536) % 65536

/-- Rust `Name` (src/tables/name.rs): the decoded name table; `name` holds the
raw string-pool bytes. -/
structure Name where
  format : TableFormat
  count : Nat
  string_offset : Nat
  name_records : List NameRecord
  name : List Nat
deriving DecidableEq

/-- Rust `Name::from_reader` (src/tables/name.rs): seek to the table, read
exactly `metadata.length` bytes, parse format/count/string_offset from
bytes 0-6, slice the record array as `&buf[6..6+count*12]` (the end
position wraps in 16-bit arithmetic; a slice whose end is below 6 or past
the buffer end panics), parse the 12-byte records, and keep the remaining
bytes verbatim as the string pool. -/
def Name.from_reader (r : VeroBufReader) (metadata : TableMetadata) :
    POutcome VeroTypeError (Name × VeroBufReader) :=
  match (r.seek_to metadata.offset).read_exact metadata.length with
  | .error e => .error (.VeroBufReaderError e)
  | .ok (buf, r1) =>
    if buf.length < 6 then .panicked
    else
      let format := u16Be (buf.getD 0 0) (buf.getD 1 0)
      let count := u16Be (buf.getD 2 0) (buf.getD 3 0)
      let string_offset := u16Be (buf.getD 4 0) (buf.getD 5 0)
      let end_of_array := nameEndOfArray count
      if end_of_array < 6 ∨ buf.length < end_of_array then .panicked
      else
        let array_buffer := (buf.drop 6).take (end_of_array - 6)
        match mapRecords (chunks12 array_buffer) with
        | .panicked => .panicked
        | .error e => .error e
        | .ok records =>
          .ok ({ format := TableFormat.from_u16 format
                 count := count
                 string_offset := string_offset
                 name_records := records
                 name := buf.drop end_of_array }, r1)

/-- Rust `Tables` (src/tables/mod.rs): the font aggregate (the decoded name
table is dropped by the source after being printed). -/
structure Tables where
  offset : OffsetTable
  headers : TablesHeaders
  head_table : Head
deriving DecidableEq

/-- Rust `Tables::from_reader` (src/tables/mod.rs): offset table, then directory,
then the head and name tables, where each directory lookup is followed by
`.unwrap()` — a missing `head` or `name` entry panics. -/
def Tables.from_reader (r : VeroBufReader) : POutcome VeroTypeError Tables :=
  match OffsetTable.from_reader r with
  | Except.error e => .error e
  | Except.ok (offset_table, r1) =>
    match TablesHeaders.from_reader r1 offset_table.num_tables with
    | .panicked => .panicked
    | .error e => .error e
    | .ok (headers, r2) =>
      match headers.get RequiredTables.Head with
      | none => .panicked
      | some head_meta =>
        match Head.from_reader r2 head_meta with
        | .panicked => .panicked
        | .error e => .error e
        | .ok (head_table, r3) =>
          match headers.get RequiredTables.Name with
          | none => .panicked
          | some name_meta =>
            match Name.from_reader r3 name_meta with
            | .panicked => .panicked
            | .error e => .error e
            | .ok (_name_table, _r4) =>
              .ok { offset := offset_table, headers := headers, head_table := head_table }

/-- C2: a 10-byte name-table region whose count field is 1 makes
`6 + count*12 = 18` exceed the table length 10, and the decoder panics on
the out-of-range slice `&buf[6..18]` instead of returning a bounds-checked
failure value. -/
theorem claim2_malformed_count_panics :
    Name.from_reader { data := [0, 0, 0, 1, 0, 30, 0, 0, 0, 0], pos := 0 }
        { checksum := 0, offset := 0, length := 10 } =
      .panicked := by decide

/-- C5: on a font file whose directory has no `head` entry (here a minimal
12-byte file with table_count 0), resolving the tables panics on
`headers.get(RequiredTables::Head).unwrap()` instead of returning
`MissingRequiredTable(tag)`. -/
theorem claim5_missing_table_panics :
    Tables.from_reader { data := [0, 1, 0, 0, 0, 0, 0, 0, 0, 0, 0, 0], pos := 0 } =
      .panicked := by decide

/-- C10: the record-array end position of the name decoder is computed in
16-bit unsigned arithmetic before widening, so for every count of 5462 or
more (and representable in a u16) the computed end equals
`(6 + count*12) mod 2^16` and differs from the mathematical value
`6 + 12*count`. -/
theorem claim10_end_of_array_wraps (count : Nat) (h1 : 5462 ≤ count)
    (h2 : count < 65536) :
    nameEndOfArray count = (6 + count * 12) % 65536 ∧
      nameEndOfArray count ≠ 6 + 12 * count := by
  unfold nameEndOfArray
  constructor
  · omega
  · intro h
    omega

/-- C10 witness at count 5462, the least count that wraps:
the computed end is 14, not 65550. -/
theorem claim10_end_of_array_wraps_witness :
    nameEndOfArray 5462 = (6 + 5462 * 12) % 65536 ∧
      nameEndOfArray 5462 ≠ 6 + 12 * 5462 :=
  claim10_end_of_array_wraps 5462 (by decide) (by decide)

/-- C8: decoding a valid 12-byte offset header buffer and re-encoding the
five fields field-for-field as big-endian bytes reproduces the original
buffer exactly. -/
theorem claim8_offset_roundtrip (buf : List Nat) (hlen : buf.length = 12)
    (hbytes : ∀ b ∈ buf, b < 256) :
    (OffsetTable.from_buffer buf).map OffsetTable.to_bytes = .ok buf := by
  rcases buf with - | ⟨b0, - | ⟨b1, - | ⟨b2, - | ⟨b3, - | ⟨b4, - | ⟨b5, - | ⟨b6, - |
    ⟨b7, - | ⟨b8, - | ⟨b9, - | ⟨b10, - | ⟨b11, - | ⟨b12, tl⟩⟩⟩⟩⟩⟩⟩⟩⟩⟩⟩⟩⟩ <;>
      simp only [List.length_cons, List.length_nil] at hlen <;> try omega
  simp only [List.mem_cons, List.not_mem_nil, or_false, forall_eq_or_imp, forall_eq]
    at hbytes
  obtain ⟨h0, h1, h2, h3, h4, h5, h6, h7, h8, h9, h10, h11⟩ := hbytes
  simp [OffsetTable.from_buffer, OffsetTable.to_bytes, Except.map, u32Be, u16Be,
    u32ToBe, u16ToBe]
  omega

/-- C8 witness at the worked example header from the design document
(`00 01 00 00 00 03 00 10 00 00 00 00`). -/
theorem claim8_offset_roundtrip_witness :
    (OffsetTable.from_buffer [0, 1, 0, 0, 0, 3, 0, 16, 0, 0, 0, 0]).map
        OffsetTable.to_bytes =
      .ok [0, 1, 0, 0, 0, 3, 0, 16, 0, 0, 0, 0] :=
  claim8_offset_roundtrip _ (by decide) (by decide)

end VeroType
